import Mathlib

set_option maxHeartbeats 1000000

set_option linter.unusedVariables false

/-!
Formal model of the electrostatics core of the repository
(Campo e força elétrica): the superposed electric-field, potential and
Coulomb-force evaluators, the Riemann-sum field-energy estimate, the
field-line tangent functions and the batch field-line loops, as
implemented in `trabalho1_campos.py`, `trabalho2_forcas.py` and
`unnamed/part_000`.  Real (floating-point) arithmetic is modelled by `ℝ`.
-/

/-- A 3-component real vector, modelling the numpy arrays `[x, y, z]` used
throughout the repository for positions, field vectors and forces. -/
@[ext]
structure Vec3 where
  x : ℝ
  y : ℝ
  z : ℝ

instance : Zero Vec3 := ⟨⟨0, 0, 0⟩⟩

instance : Add Vec3 := ⟨fun a b => ⟨a.x + b.x, a.y + b.y, a.z + b.z⟩⟩

instance : Neg Vec3 := ⟨fun a => ⟨-a.x, -a.y, -a.z⟩⟩

instance : Sub Vec3 := ⟨fun a b => ⟨a.x - b.x, a.y - b.y, a.z - b.z⟩⟩

instance : SMul ℝ Vec3 := ⟨fun r a => ⟨r * a.x, r * a.y, r * a.z⟩⟩

@[simp] theorem Vec3.zero_x : (0 : Vec3).x = 0 := rfl

@[simp] theorem Vec3.zero_y : (0 : Vec3).y = 0 := rfl

@[simp] theorem Vec3.zero_z : (0 : Vec3).z = 0 := rfl

@[simp] theorem Vec3.add_x (a b : Vec3) : (a + b).x = a.x + b.x := rfl

@[simp] theorem Vec3.add_y (a b : Vec3) : (a + b).y = a.y + b.y := rfl

@[simp] theorem Vec3.add_z (a b : Vec3) : (a + b).z = a.z + b.z := rfl

@[simp] theorem Vec3.neg_x (a : Vec3) : (-a).x = -a.x := rfl

@[simp] theorem Vec3.neg_y (a : Vec3) : (-a).y = -a.y := rfl

@[simp] theorem Vec3.neg_z (a : Vec3) : (-a).z = -a.z := rfl

@[simp] theorem Vec3.sub_x (a b : Vec3) : (a - b).x = a.x - b.x := rfl

@[simp] theorem Vec3.sub_y (a b : Vec3) : (a - b).y = a.y - b.y := rfl

@[simp] theorem Vec3.sub_z (a b : Vec3) : (a - b).z = a.z - b.z := rfl

@[simp] theorem Vec3.smul_x (r : ℝ) (a : Vec3) : (r • a).x = r * a.x := rfl

@[simp] theorem Vec3.smul_y (r : ℝ) (a : Vec3) : (r • a).y = r * a.y := rfl

@[simp] theorem Vec3.smul_z (r : ℝ) (a : Vec3) : (r • a).z = r * a.z := rfl

instance : AddCommGroup Vec3 where
  add := (· + ·)
  zero := 0
  neg := (- ·)
  sub := (· - ·)
  nsmul := nsmulRec
  zsmul := zsmulRec
  add_assoc a b c := by ext <;> simp <;> ring
  zero_add a := by ext <;> simp
  add_zero a := by ext <;> simp
  add_comm a b := by ext <;> simp <;> ring
  neg_add_cancel a := by ext <;> simp
  sub_eq_add_neg a b := by ext <;> simp <;> ring

instance : Module ℝ Vec3 where
  smul := (· • ·)
  one_smul a := by ext <;> simp
  mul_smul r s a := by ext <;> simp <;> ring
  smul_zero r := by ext <;> simp
  smul_add r a b := by ext <;> simp <;> ring
  add_smul r s a := by ext <;> simp <;> ring
  zero_smul a := by ext <;> simp

/-- Euclidean length of a 3-vector, modelling `np.linalg.norm`. -/
noncomputable def Vec3.norm (v : Vec3) : ℝ :=
  Real.sqrt (v.x ^ 2 + v.y ^ 2 + v.z ^ 2)

/-- Dot product of 3-vectors, modelling `np.dot`. -/
def Vec3.dot (a b : Vec3) : ℝ := a.x * b.x + a.y * b.y + a.z * b.z

/-- A point charge: position `pos` (meters) and signed magnitude `q`
(coulombs), modelling the dicts `{'q': ..., 'pos': ...}` built in all three
scripts.  Display-only keys (`valor_µC`, `id`, `nome`) are omitted: none of
the evaluators read them. -/
structure Carga where
  pos : Vec3
  q : ℝ

/-- Coulomb constant `K_E` of `trabalho1_campos.py` (line 8) and
`trabalho2_forcas.py` (line 7). -/
noncomputable def K_E : ℝ := 8.9875517923e9

/-- Vacuum permittivity `EPSILON_0` of `trabalho1_campos.py` (line 9). -/
noncomputable def EPSILON_0 : ℝ := 8.8541878128e-12

/-- Coulomb constant `k_e` of `unnamed/part_000` (line 8).  Note that it is
a coarser rounding than `K_E`; the two constants are not equal. -/
noncomputable def k_e : ℝ := 8.99e9

/-- `calcular_campo_eletrico` from `trabalho1_campos.py` (lines 72-94):
superposed electric field at `posicao`, skipping any charge closer than
0.05 m. -/
noncomputable def calcular_campo_eletrico (posicao : Vec3) (cargas : List Carga) : Vec3 :=
  cargas.foldl
    (fun E carga =>
      let vetor_r := posicao - carga.pos
      let distancia := vetor_r.norm
      if distancia < 0.05 then E
      else E + (K_E * carga.q / distancia ^ 3) • vetor_r)
    0

/-- `e_individual` from `unnamed/part_000` (lines 57-62): one charge's field
contribution, zero within 1e-8 m of the charge. -/
noncomputable def e_individual (pos : Vec3) (charge : Carga) : Vec3 :=
  let r_vec := pos - charge.pos
  let r := r_vec.norm
  if r < 1e-8 then 0
  else (k_e * charge.q / r ^ 3) • r_vec

/-- `e_total` from `unnamed/part_000` (lines 64-65): superposition sum of
the individual contributions. -/
noncomputable def e_total (pos : Vec3) (charges : List Carga) : Vec3 :=
  (charges.map (e_individual pos)).sum

/-- `potential` from `unnamed/part_000` (lines 67-74): scalar potential,
skipping any charge closer than 1e-8 m. -/
noncomputable def potential (pos : Vec3) (charges : List Carga) : ℝ :=
  charges.foldl
    (fun V c =>
      let r := (pos - c.pos).norm
      if r < 1e-8 then V
      else V + k_e * c.q / r)
    0

/-- One entry of the `forcas` list returned by `calcular_forca_coulomb` in
`trabalho2_forcas.py`: the dict `{'vetor': ..., 'magnitude': ...}` (the
display label `'origem'` is omitted). -/
structure Forca where
  vetor : Vec3
  magnitude : ℝ

/-- Loop body of `calcular_forca_coulomb` (`trabalho2_forcas.py` lines
55-75): the force one fixed charge exerts on the test charge, with the
distance clamped below at 0.01 m. -/
noncomputable def forca_de_carga (q_teste : ℝ) (pos_teste : Vec3) (carga : Carga) : Forca :=
  let vetor_r := pos_teste - carga.pos
  let distancia0 := vetor_r.norm
  let distancia := if distancia0 < 0.01 then 0.01 else distancia0
  let vetor_unitario := (1 / distancia) • vetor_r
  let magnitude := K_E * |q_teste * carga.q| / distancia ^ 2
  if 0 < q_teste * carga.q then ⟨magnitude • vetor_unitario, magnitude⟩
  else ⟨(-magnitude) • vetor_unitario, magnitude⟩

/-- `calcular_forca_coulomb` from `trabalho2_forcas.py` (lines 50-77):
returns the list of per-charge forces and the accumulated resultant. -/
noncomputable def calcular_forca_coulomb (q_teste : ℝ) (pos_teste : Vec3)
    (cargas_fixas : List Carga) : List Forca × Vec3 :=
  cargas_fixas.foldl
    (fun acc carga =>
      let f := forca_de_carga q_teste pos_teste carga
      (acc.1 ++ [f], acc.2 + f.vetor))
    ([], 0)

/-- `np.linspace a b n`: `n` evenly spaced samples from `a` to `b`
inclusive, with step `(b - a)/(n - 1)`. -/
noncomputable def linspace (a b : ℝ) (n : ℕ) : List ℝ :=
  (List.range n).map (fun i => a + (i : ℝ) * ((b - a) / ((n : ℝ) - 1)))

/-- `pontos_amostra = np.linspace(-2, 2, 8)` (`trabalho1_campos.py`
line 189). -/
noncomputable def pontos_amostra : List ℝ := linspace (-2) 2 8

/-- The grid of the triple energy loop (`trabalho1_campos.py` lines
192-194): every `(x, y, z)` with each coordinate drawn from
`pontos_amostra`, in loop order. -/
noncomputable def grade_energia : List Vec3 :=
  pontos_amostra.flatMap fun x =>
    pontos_amostra.flatMap fun y =>
      pontos_amostra.map fun z => ⟨x, y, z⟩

/-- `energia_total` (`trabalho1_campos.py` lines 189-198): accumulate
`np.dot(E, E)` over the grid, then multiply by
`0.5 * EPSILON_0 * (4/7)**3`. -/
noncomputable def energia_total (cargas : List Carga) : ℝ :=
  (grade_energia.map fun p =>
      (calcular_campo_eletrico p cargas).dot (calcular_campo_eletrico p cargas)).sum
    * (0.5 * EPSILON_0 * (4 / 7) ^ 3)

/-- `equacao_diferencial` (`trabalho1_campos.py` lines 274-277): the
field-line tangent, `E/|E|` when `|E| > 1e-6` and the zero vector
otherwise.  The `cargas` list, captured by the Python closure, is an
explicit parameter; `t` is ignored exactly as in the source. -/
noncomputable def equacao_diferencial (cargas : List Carga) (t : ℝ) (pos : Vec3) : Vec3 :=
  let E := calcular_campo_eletrico pos cargas
  let norma := E.norm
  if norma > 1e-6 then (1 / norma) • E else 0

/-- The expression `e_total(r)` exactly as written at `unnamed/part_000`
line 98: `e_total` (line 64) requires a second positional parameter
`charges` with no default, so this call raises `TypeError` on every
evaluation; the fallible call is modelled as the always-failing
`Option`. -/
def e_total_de_um_argumento (r : Vec3) : Option Vec3 := none

/-- `ode` (`unnamed/part_000` lines 97-100): the field-line tangent of the
second variant, threshold 1e-8, modelled as a fallible function.  Its body
first binds `E = e_total(r)` — the call that raises `TypeError` — and only
then computes the guarded tangent, so the error propagates and no tangent
value is ever produced. -/
noncomputable def ode (t : ℝ) (r : Vec3) : Option Vec3 :=
  match e_total_de_um_argumento r with
  | none => none
  | some E =>
    let norma := E.norm
    some (if norma > 1e-8 then (1 / norma) • E else 0)

/-- Batch field-line loop of `trabalho1_campos.py` (lines 279-298).
`solve_ivp` is external library code, so one seed's integration is
abstracted as `integrador`, returning `some polyline` on success and `none`
when it raises.  The loop wraps each seed in `try/except: pass`, so a
failing seed is skipped and the successful polylines are kept in order. -/
def tracar_linhas_com_guarda (integrador : Vec3 → Option (List Vec3))
    (sementes : List Vec3) : List (List Vec3) :=
  sementes.filterMap integrador

/-- Batch field-line loop of `unnamed/part_000` (lines 95-103): the same
loop but with no exception handler, so an exception raised while
integrating one seed propagates and aborts the whole batch (modelled by
`mapM` in the `Option` monad). -/
def tracar_linhas_sem_guarda (integrador : Vec3 → Option (List Vec3))
    (sementes : List Vec3) : Option (List (List Vec3)) :=
  sementes.mapM integrador

/-- Modelled from the spec: the single parameterized field-evaluator core
that, per the spec, all repository variants duplicate ("the five repository
variants combined represent the same core logic"), with the Coulomb
constant `k` and the singularity-guard threshold `eps` as parameters. -/
noncomputable def campoNucleo (k eps : ℝ) (pos : Vec3) (cargas : List Carga) : Vec3 :=
  (cargas.map fun c =>
    let r_vec := pos - c.pos
    let r := r_vec.norm
    if r < eps then 0 else (k * c.q / r ^ 3) • r_vec).sum

/-- A concrete integrator used to exercise the batch loops: it fails
(raises) on a seed whose x-coordinate is 0 and returns the one-point
polyline otherwise. -/
noncomputable def integraTeste : Vec3 → Option (List Vec3) :=
  fun v => if v.x = 0 then none else some [v]

/-! Basic facts about `Vec3.norm` and `Vec3.dot`. -/

theorem Vec3.norm_nonneg (v : Vec3) : 0 ≤ v.norm :=
  Real.sqrt_nonneg _

theorem Vec3.dot_self (v : Vec3) : v.dot v = v.norm ^ 2 := by
  rw [Vec3.norm, Real.sq_sqrt (by positivity)]
  simp [Vec3.dot]
  ring

theorem Vec3.norm_smul (r : ℝ) (v : Vec3) : (r • v).norm = |r| * v.norm := by
  simp only [Vec3.norm, Vec3.smul_x, Vec3.smul_y, Vec3.smul_z]
  rw [show (r * v.x) ^ 2 + (r * v.y) ^ 2 + (r * v.z) ^ 2
      = r ^ 2 * (v.x ^ 2 + v.y ^ 2 + v.z ^ 2) by ring,
    Real.sqrt_mul (sq_nonneg r), Real.sqrt_sq_eq_abs]

theorem Vec3.dot_smul_left (r : ℝ) (a b : Vec3) : (r • a).dot b = r * a.dot b := by
  simp [Vec3.dot]
  ring

theorem Vec3.norm_axis_x (a : ℝ) (h : 0 ≤ a) : Vec3.norm ⟨a, 0, 0⟩ = a := by
  simp only [Vec3.norm]
  rw [show a ^ 2 + (0:ℝ) ^ 2 + (0:ℝ) ^ 2 = a ^ 2 by ring, Real.sqrt_sq h]

theorem Vec3.norm_axis_y (a : ℝ) (h : 0 ≤ a) : Vec3.norm ⟨0, a, 0⟩ = a := by
  simp only [Vec3.norm]
  rw [show (0:ℝ) ^ 2 + a ^ 2 + (0:ℝ) ^ 2 = a ^ 2 by ring, Real.sqrt_sq h]

/-! Closed forms for the accumulating loops. -/

/-- The field loop of `calcular_campo_eletrico`, run from any initial
accumulator, adds the per-charge contributions of the charges it does not
skip. -/
theorem campo_foldl (p : Vec3) (cs : List Carga) (E0 : Vec3) :
    cs.foldl
      (fun E carga =>
        let vetor_r := p - carga.pos
        let distancia := vetor_r.norm
        if distancia < 0.05 then E
        else E + (K_E * carga.q / distancia ^ 3) • vetor_r)
      E0
      = E0 + (cs.map fun c =>
          if (p - c.pos).norm < 0.05 then 0
          else (K_E * c.q / (p - c.pos).norm ^ 3) • (p - c.pos)).sum := by
  induction cs generalizing E0 with
  | nil => simp
  | cons c cs ih =>
    simp only [List.foldl_cons, List.map_cons, List.sum_cons]
    by_cases h : (p - c.pos).norm < 0.05
    · simp only [if_pos h, ih, zero_add]
    · simp only [if_neg h, ih, add_assoc]

/-- `calcular_campo_eletrico` as a sum over the charge list. -/
theorem calcular_campo_eq_sum (p : Vec3) (cs : List Carga) :
    calcular_campo_eletrico p cs
      = (cs.map fun c =>
          if (p - c.pos).norm < 0.05 then 0
          else (K_E * c.q / (p - c.pos).norm ^ 3) • (p - c.pos)).sum := by
  rw [calcular_campo_eletrico, campo_foldl, zero_add]

/-- The potential loop, run from any initial accumulator. -/
theorem potential_foldl (p : Vec3) (cs : List Carga) (V0 : ℝ) :
    cs.foldl
      (fun V c =>
        let r := (p - c.pos).norm
        if r < 1e-8 then V
        else V + k_e * c.q / r)
      V0
      = V0 + (cs.map fun c =>
          if (p - c.pos).norm < 1e-8 then 0
          else k_e * c.q / (p - c.pos).norm).sum := by
  induction cs generalizing V0 with
  | nil => simp
  | cons c cs ih =>
    simp only [List.foldl_cons, List.map_cons, List.sum_cons]
    by_cases h : (p - c.pos).norm < 1e-8
    · simp only [if_pos h, ih, zero_add]
    · simp only [if_neg h, ih, add_assoc]

/-- `potential` as a sum over the charge list. -/
theorem potential_eq_sum (p : Vec3) (cs : List Carga) :
    potential p cs
      = (cs.map fun c =>
          if (p - c.pos).norm < 1e-8 then 0
          else k_e * c.q / (p - c.pos).norm).sum := by
  rw [potential, potential_foldl, zero_add]

/-- The force loop, run from any accumulator pair. -/
theorem forca_foldl (q : ℝ) (p : Vec3) (cs : List Carga) (acc : List Forca × Vec3) :
    cs.foldl
      (fun acc carga =>
        let f := forca_de_carga q p carga
        (acc.1 ++ [f], acc.2 + f.vetor))
      acc
      = (acc.1 ++ cs.map (forca_de_carga q p),
         acc.2 + (cs.map fun c => (forca_de_carga q p c).vetor).sum) := by
  induction cs generalizing acc with
  | nil => simp
  | cons c cs ih =>
    simp only [List.foldl_cons, List.map_cons, List.sum_cons]
    rw [ih]
    simp [add_assoc]

/-- The per-charge force list returned by `calcular_forca_coulomb`. -/
theorem calcular_forca_fst (q : ℝ) (p : Vec3) (cs : List Carga) :
    (calcular_forca_coulomb q p cs).1 = cs.map (forca_de_carga q p) := by
  rw [calcular_forca_coulomb, forca_foldl]
  simp

/-- The resultant returned by `calcular_forca_coulomb` is the sum of the
per-charge force vectors. -/
theorem calcular_forca_snd (q : ℝ) (p : Vec3) (cs : List Carga) :
    (calcular_forca_coulomb q p cs).2
      = (cs.map fun c => (forca_de_carga q p c).vetor).sum := by
  rw [calcular_forca_coulomb, forca_foldl]
  simp

/-- Claim C1: for every query point and finite charge list, the field
evaluator returns the superposition sum over exactly the charges whose
distance is at least the 0.05 epsilon guard, each contributing
`k_e * q_i * (p - pos_i) / |p - pos_i|^3` with `k_e = 8.9875517923e9`,
while a closer charge contributes the zero vector; the evaluator is a
total function, so no error is raised. -/
theorem c1_campo_superposicao (p : Vec3) (cargas : List Carga) :
    calcular_campo_eletrico p cargas
      = (cargas.map fun c =>
          if 0.05 ≤ (p - c.pos).norm then
            ((8.9875517923e9 : ℝ) * c.q / (p - c.pos).norm ^ 3) • (p - c.pos)
          else 0).sum := by
  rw [calcular_campo_eq_sum]
  have : (fun (c : Carga) =>
        if (p - c.pos).norm < 0.05 then (0 : Vec3)
        else (K_E * c.q / (p - c.pos).norm ^ 3) • (p - c.pos))
      = fun (c : Carga) =>
        if 0.05 ≤ (p - c.pos).norm then
          ((8.9875517923e9 : ℝ) * c.q / (p - c.pos).norm ^ 3) • (p - c.pos)
        else 0 := by
    funext c
    by_cases h : (p - c.pos).norm < 0.05
    · rw [if_pos h, if_neg (not_le.mpr h)]
    · rw [if_neg h, if_pos (not_lt.mp h), K_E]
  rw [this]

/-- Claim C3: the field evaluator is linear in superposition: over the
concatenation of two charge lists it returns exactly the vector sum of the
evaluations over each list, in both repository variants. -/
theorem c3_superposicao_linear (p : Vec3) (A B : List Carga) :
    calcular_campo_eletrico p (A ++ B)
        = calcular_campo_eletrico p A + calcular_campo_eletrico p B ∧
    e_total p (A ++ B) = e_total p A + e_total p B := by
  constructor
  · rw [calcular_campo_eq_sum, calcular_campo_eq_sum, calcular_campo_eq_sum,
      List.map_append, List.sum_append]
  · rw [e_total, e_total, e_total, List.map_append, List.sum_append]

/-- Claim C4: for every charge configuration the energy estimate equals
`(ε₀/2)` times the sum of `|E(p)|²` over every point of the sampling grid,
multiplied by the per-cell volume element `(L/(n-1))³` with `L = 4` and
`n = 8`; in particular the code's `(4/7)³` factor is exactly
`(L/(n-1))³`. -/
theorem c4_energia_formula (cargas : List Carga) :
    energia_total cargas
      = EPSILON_0 / 2
        * (grade_energia.map fun p => (calcular_campo_eletrico p cargas).norm ^ 2).sum
        * (4 / ((8 : ℝ) - 1)) ^ 3 := by
  rw [energia_total]
  have : (fun p => (calcular_campo_eletrico p cargas).dot (calcular_campo_eletrico p cargas))
      = fun p => (calcular_campo_eletrico p cargas).norm ^ 2 :=
    funext fun p => Vec3.dot_self _
  rw [this]
  norm_num
  ring

/-- Claim C6: for the empty charge list, field evaluation (both variants)
returns the zero vector and potential evaluation returns the scalar zero,
at every query point, without failing. -/
theorem c6_lista_vazia (p : Vec3) :
    calcular_campo_eletrico p [] = 0 ∧ e_total p [] = 0 ∧ potential p [] = 0 := by
  refine ⟨?_, ?_, ?_⟩ <;> simp [calcular_campo_eletrico, e_total, potential]

/-- Counterexample to claim C5: at the query point `(1,0,0)` with a single
1 C charge at the origin — distance 1, far outside both guards — the two
variants return different field vectors, because `trabalho1_campos.py`
uses `K_E = 8.9875517923e9` while `unnamed/part_000` uses
`k_e = 8.99e9`. -/
theorem c5_contraexemplo :
    (0.05 : ℝ) ≤ ((⟨1, 0, 0⟩ : Vec3) - (⟨0, 0, 0⟩ : Vec3)).norm ∧
    calcular_campo_eletrico ⟨1, 0, 0⟩ [⟨⟨0, 0, 0⟩, 1⟩]
      ≠ e_total ⟨1, 0, 0⟩ [⟨⟨0, 0, 0⟩, 1⟩] := by
  have hsub : ((⟨1, 0, 0⟩ : Vec3) - (⟨0, 0, 0⟩ : Vec3)) = ⟨1, 0, 0⟩ := by
    ext <;> simp
  have hnorm : ((⟨1, 0, 0⟩ : Vec3) - (⟨0, 0, 0⟩ : Vec3)).norm = 1 := by
    rw [hsub, Vec3.norm_axis_x 1 (by norm_num)]
  refine ⟨by rw [hnorm]; norm_num, ?_⟩
  have h1 : calcular_campo_eletrico ⟨1, 0, 0⟩ [⟨⟨0, 0, 0⟩, 1⟩] = K_E • (⟨1, 0, 0⟩ : Vec3) := by
    rw [calcular_campo_eq_sum]
    simp only [List.map_cons, List.map_nil, List.sum_cons, List.sum_nil, add_zero]
    rw [hnorm, if_neg (by norm_num), hsub]
    norm_num
  have h2 : e_total ⟨1, 0, 0⟩ [⟨⟨0, 0, 0⟩, 1⟩] = k_e • (⟨1, 0, 0⟩ : Vec3) := by
    rw [e_total]
    simp only [List.map_cons, List.map_nil, List.sum_cons, List.sum_nil, add_zero]
    rw [e_individual]
    simp only
    rw [hnorm, if_neg (by norm_num), hsub]
    norm_num
  rw [h1, h2]
  intro h
  have hx := congrArg Vec3.x h
  simp only [Vec3.smul_x] at hx
  rw [K_E, k_e] at hx
  norm_num at hx

/-- Claim C5 as amended: the two field evaluators implement the same
parameterized core logic, but differ in the Coulomb constant as well as in
the singularity-guard threshold: `calcular_campo_eletrico` instantiates the
core at `(K_E, 0.05)` and `e_total` instantiates it at `(k_e, 1e-8)`; with
`K_E ≠ k_e` their results at a common point are in general not equal. -/
theorem c5_emendado (p : Vec3) (cs : List Carga) :
    calcular_campo_eletrico p cs = campoNucleo K_E 0.05 p cs ∧
    e_total p cs = campoNucleo k_e 1e-8 p cs := by
  constructor
  · rw [calcular_campo_eq_sum, campoNucleo]
  · rfl

theorem K_E_pos : (0 : ℝ) < K_E := by rw [K_E]; norm_num

/-- Away from the 0.01 m clamp, the per-charge force is the signed Coulomb
vector `K_E * q_t * q_i / d³ • r` with the magnitude `K_E * |q_t * q_i| / d²`. -/
theorem forca_de_carga_sem_clamp (q : ℝ) (p : Vec3) (c : Carga)
    (h : 0.01 ≤ (p - c.pos).norm) :
    forca_de_carga q p c
      = ⟨(K_E * (q * c.q) / (p - c.pos).norm ^ 3) • (p - c.pos),
         K_E * |q * c.q| / (p - c.pos).norm ^ 2⟩ := by
  have hne : ¬ (p - c.pos).norm < 0.01 := not_lt.mpr h
  have hd : (0 : ℝ) < (p - c.pos).norm := lt_of_lt_of_le (by norm_num) h
  rw [forca_de_carga]
  simp only [hne, if_false, ite_false]
  by_cases hq : 0 < q * c.q
  · rw [if_pos hq]
    congr 1
    rw [smul_smul]
    congr 1
    rw [abs_of_pos hq]
    ring
  · rw [if_neg hq]
    congr 1
    rw [smul_smul]
    congr 1
    rw [abs_of_nonpos (not_lt.mp hq)]
    ring

/-- Claim C9: the potential evaluator sums `k_e * q_i / |p - pos_i|` over
exactly the charges at distance at least the 1e-8 guard (closer charges
are skipped), and for a single charge the potential depends only on the
distance, not on the direction. -/
theorem c9_potencial (p : Vec3) (cs : List Carga) :
    potential p cs
        = (cs.map fun c =>
            if 1e-8 ≤ (p - c.pos).norm then k_e * c.q / (p - c.pos).norm else 0).sum ∧
    ∀ (c : Carga) (p₁ p₂ : Vec3),
      (p₁ - c.pos).norm = (p₂ - c.pos).norm → potential p₁ [c] = potential p₂ [c] := by
  constructor
  · rw [potential_eq_sum]
    have : (fun (c : Carga) =>
          if (p - c.pos).norm < 1e-8 then (0 : ℝ)
          else k_e * c.q / (p - c.pos).norm)
        = fun (c : Carga) =>
          if 1e-8 ≤ (p - c.pos).norm then k_e * c.q / (p - c.pos).norm else 0 := by
      funext c
      by_cases h : (p - c.pos).norm < 1e-8
      · rw [if_pos h, if_neg (not_le.mpr h)]
      · rw [if_neg h, if_pos (not_lt.mp h)]
    rw [this]
  · intro c p₁ p₂ h
    rw [potential_eq_sum, potential_eq_sum]
    simp only [List.map_cons, List.map_nil, List.sum_cons, List.sum_nil, add_zero, h]

/-- Witness for C9 at a concrete input: the points `(1,0,0)` and `(0,1,0)`
are equidistant from a unit charge at the origin, and the potentials there
agree. -/
theorem c9_testemunha :
    ((⟨1, 0, 0⟩ : Vec3) - (⟨0, 0, 0⟩ : Vec3)).norm
        = ((⟨0, 1, 0⟩ : Vec3) - (⟨0, 0, 0⟩ : Vec3)).norm ∧
    potential ⟨1, 0, 0⟩ [⟨⟨0, 0, 0⟩, 1⟩] = potential ⟨0, 1, 0⟩ [⟨⟨0, 0, 0⟩, 1⟩] := by
  have h : ((⟨1, 0, 0⟩ : Vec3) - (⟨0, 0, 0⟩ : Vec3)).norm
      = ((⟨0, 1, 0⟩ : Vec3) - (⟨0, 0, 0⟩ : Vec3)).norm := by
    rw [show ((⟨1, 0, 0⟩ : Vec3) - (⟨0, 0, 0⟩ : Vec3)) = ⟨1, 0, 0⟩ from by ext <;> simp,
      show ((⟨0, 1, 0⟩ : Vec3) - (⟨0, 0, 0⟩ : Vec3)) = ⟨0, 1, 0⟩ from by ext <;> simp,
      Vec3.norm_axis_x 1 (by norm_num), Vec3.norm_axis_y 1 (by norm_num)]
  exact ⟨h, (c9_potencial ⟨0, 0, 0⟩ []).2 ⟨⟨0, 0, 0⟩, 1⟩ ⟨1, 0, 0⟩ ⟨0, 1, 0⟩ h⟩

/-- Claim C2: when every fixed charge is farther than the guards of both
evaluators, the resultant of `calcular_forca_coulomb` equals the test
charge times the field, and each per-charge force obeys Coulomb's sign
convention: positive product pushes away from the source (positive dot
with `p - pos_i`), negative product pulls toward it. -/
theorem c2_forca_igual_carga_vezes_campo (q_teste : ℝ) (p : Vec3) (cargas : List Carga)
    (h : ∀ c ∈ cargas, 0.05 < (p - c.pos).norm) :
    (calcular_forca_coulomb q_teste p cargas).2
        = q_teste • calcular_campo_eletrico p cargas ∧
    ∀ c ∈ cargas,
      (0 < q_teste * c.q →
        0 < (forca_de_carga q_teste p c).vetor.dot (p - c.pos)) ∧
      (q_teste * c.q < 0 →
        (forca_de_carga q_teste p c).vetor.dot (p - c.pos) < 0) := by
  constructor
  · rw [calcular_forca_snd, calcular_campo_eq_sum, List.smul_sum, List.map_map]
    apply congrArg List.sum
    apply List.map_congr_left
    intro c hc
    have hd := h c hc
    have h01 : (0.01 : ℝ) ≤ (p - c.pos).norm := le_of_lt (lt_trans (by norm_num) hd)
    rw [Function.comp_apply, forca_de_carga_sem_clamp q_teste p c h01]
    dsimp only
    rw [if_neg (not_lt.mpr (le_of_lt hd)), smul_smul]
    congr 1
    ring
  · intro c hc
    have hd0 : (0 : ℝ) < (p - c.pos).norm := lt_trans (by norm_num) (h c hc)
    have h01 : (0.01 : ℝ) ≤ (p - c.pos).norm := le_of_lt (lt_trans (by norm_num) (h c hc))
    rw [forca_de_carga_sem_clamp q_teste p c h01]
    dsimp only
    rw [Vec3.dot_smul_left, Vec3.dot_self]
    constructor
    · intro hq
      exact mul_pos (div_pos (mul_pos K_E_pos hq) (pow_pos hd0 3)) (pow_pos hd0 2)
    · intro hq
      exact mul_neg_of_neg_of_pos
        (div_neg_of_neg_of_pos (mul_neg_of_pos_of_neg K_E_pos hq) (pow_pos hd0 3))
        (pow_pos hd0 2)

/-- Witness for C2 at a concrete input: test charge 1 C at `(1,0,0)` and a
single fixed unit charge at the origin (distance 1, beyond both guards). -/
theorem c2_testemunha :
    (∀ c ∈ ([⟨⟨0, 0, 0⟩, 1⟩] : List Carga),
        (0.05 : ℝ) < ((⟨1, 0, 0⟩ : Vec3) - c.pos).norm) ∧
    (calcular_forca_coulomb 1 ⟨1, 0, 0⟩ [⟨⟨0, 0, 0⟩, 1⟩]).2
        = (1 : ℝ) • calcular_campo_eletrico ⟨1, 0, 0⟩ [⟨⟨0, 0, 0⟩, 1⟩] := by
  have h : ∀ c ∈ ([⟨⟨0, 0, 0⟩, 1⟩] : List Carga),
      (0.05 : ℝ) < ((⟨1, 0, 0⟩ : Vec3) - c.pos).norm := by
    intro c hc
    simp only [List.mem_singleton] at hc
    subst hc
    rw [show ((⟨1, 0, 0⟩ : Vec3) - (⟨⟨0, 0, 0⟩, 1⟩ : Carga).pos) = ⟨1, 0, 0⟩ from by
        ext <;> simp,
      Vec3.norm_axis_x 1 (by norm_num)]
    norm_num
  exact ⟨h, (c2_forca_igual_carga_vezes_campo 1 ⟨1, 0, 0⟩ _ h).1⟩

/-- Claim C8 against the code: the `trabalho1_campos.py` tangent
`equacao_diferencial` is total exactly as claimed — `E/|E|` (a unit vector)
when `|E|` exceeds the 1e-6 threshold and the zero vector at or below it,
with the division always guarded — but the `unnamed/part_000` tangent
`ode` never produces a tangent at all: its call `e_total(r)` omits the
required `charges` argument, so every evaluation raises `TypeError`
instead of returning `E/|E|` or stalling. -/
theorem c8_tangente_total (cargas : List Carga) (t : ℝ) (pos : Vec3) :
    (1e-6 < (calcular_campo_eletrico pos cargas).norm →
      equacao_diferencial cargas t pos
          = (1 / (calcular_campo_eletrico pos cargas).norm) • calcular_campo_eletrico pos cargas ∧
      (equacao_diferencial cargas t pos).norm = 1) ∧
    ((calcular_campo_eletrico pos cargas).norm ≤ 1e-6 →
      equacao_diferencial cargas t pos = 0) ∧
    ode t pos = none := by
  refine ⟨fun h => ?_, fun h => ?_, rfl⟩
  · have hval : equacao_diferencial cargas t pos
        = (1 / (calcular_campo_eletrico pos cargas).norm) • calcular_campo_eletrico pos cargas := by
      rw [equacao_diferencial]
      exact if_pos h
    have hpos : (0 : ℝ) < (calcular_campo_eletrico pos cargas).norm :=
      lt_trans (by norm_num) h
    refine ⟨hval, ?_⟩
    rw [hval, Vec3.norm_smul, abs_of_pos (by positivity), one_div,
      inv_mul_cancel₀ (ne_of_gt hpos)]
  · rw [equacao_diferencial]
    exact if_neg (not_lt.mpr h)

/-- Witness for C8 at a concrete input: with no charges the field is zero,
its norm 0 is at or below the threshold and the trabalho1 tangent stalls,
while the part_000 tangent produces no value at that same input. -/
theorem c8_testemunha :
    ((calcular_campo_eletrico ⟨0, 0, 0⟩ []).norm ≤ 1e-6 ∧
      equacao_diferencial [] 0 ⟨0, 0, 0⟩ = 0) ∧
    ode 0 ⟨0, 0, 0⟩ = none := by
  have h1 : (calcular_campo_eletrico ⟨0, 0, 0⟩ []).norm ≤ 1e-6 := by
    rw [show calcular_campo_eletrico ⟨0, 0, 0⟩ [] = 0 from rfl,
      show (0 : Vec3).norm = 0 from by
        rw [Vec3.norm]
        norm_num]
    norm_num
  exact ⟨⟨h1, (c8_tangente_total [] 0 ⟨0, 0, 0⟩).2.1 h1⟩,
    (c8_tangente_total [] 0 ⟨0, 0, 0⟩).2.2⟩

/-- Counterexample to claim C7: in the `unnamed/part_000` batch loop, which
has no exception handler, a failing first seed aborts the whole batch —
no list of lines is produced at all — even though the second seed would
integrate successfully. -/
theorem c7_contraexemplo :
    tracar_linhas_sem_guarda integraTeste [⟨0, 0, 0⟩, ⟨1, 0, 0⟩] = none ∧
    integraTeste ⟨1, 0, 0⟩ = some [⟨1, 0, 0⟩] := by
  have h0 : integraTeste ⟨0, 0, 0⟩ = none := by
    rw [integraTeste]
    exact if_pos rfl
  have h1 : integraTeste ⟨1, 0, 0⟩ = some [⟨1, 0, 0⟩] := by
    rw [integraTeste]
    exact if_neg one_ne_zero
  refine ⟨?_, h1⟩
  rw [tracar_linhas_sem_guarda, List.mapM_cons, h0]
  rfl

/-- Claim C7 as amended: in `trabalho1_campos.py` the per-seed `try/except`
makes a failing seed's line be dropped while every remaining seed is still
traced; in `unnamed/part_000`, which lacks the handler, a failing seed
aborts the whole batch. -/
theorem c7_emendado (integrador : Vec3 → Option (List Vec3)) (pre post : List Vec3)
    (s : Vec3) (h : integrador s = none) :
    tracar_linhas_com_guarda integrador (pre ++ s :: post)
      = tracar_linhas_com_guarda integrador (pre ++ post) := by
  rw [tracar_linhas_com_guarda, tracar_linhas_com_guarda, List.filterMap_append,
    List.filterMap_append, List.filterMap_cons, h]

/-- Witness for C7 at a concrete input: the failing seed `(0,0,0)` is
dropped from the guarded batch and the remaining seed is still traced. -/
theorem c7_testemunha :
    integraTeste ⟨0, 0, 0⟩ = none ∧
    tracar_linhas_com_guarda integraTeste ([] ++ ⟨0, 0, 0⟩ :: [⟨1, 0, 0⟩])
      = tracar_linhas_com_guarda integraTeste ([] ++ [⟨1, 0, 0⟩]) := by
  have h0 : integraTeste ⟨0, 0, 0⟩ = none := by
    rw [integraTeste]
    exact if_pos rfl
  exact ⟨h0, c7_emendado integraTeste [] [⟨1, 0, 0⟩] ⟨0, 0, 0⟩ h0⟩

/-- Counterexample to claim C10: with the test charge at distance 0.005
from a unit source charge, the 0.01 clamp makes the stored 'vetor' half as
long as the stored 'magnitude' (the clamped "unit" vector has length 0.5),
so the entry's magnitude does not equal the norm of its vector. -/
theorem c10_contraexemplo :
    ¬ ∀ f ∈ (calcular_forca_coulomb 1 ⟨0.005, 0, 0⟩ [⟨⟨0, 0, 0⟩, 1⟩]).1,
        f.magnitude = f.vetor.norm := by
  intro hall
  have hsub : (⟨0.005, 0, 0⟩ : Vec3) - (⟨⟨0, 0, 0⟩, 1⟩ : Carga).pos
      = (⟨0.005, 0, 0⟩ : Vec3) := by
    ext <;> simp
  have hn : Vec3.norm ⟨0.005, 0, 0⟩ = 0.005 := Vec3.norm_axis_x 0.005 (by norm_num)
  have hF : forca_de_carga 1 ⟨0.005, 0, 0⟩ ⟨⟨0, 0, 0⟩, 1⟩
      = ⟨(K_E * |(1 : ℝ) * 1| / 0.01 ^ 2) • (((1 : ℝ) / 0.01) • (⟨0.005, 0, 0⟩ : Vec3)),
         K_E * |(1 : ℝ) * 1| / 0.01 ^ 2⟩ := by
    simp only [forca_de_carga, hsub, hn]
    rw [if_pos (show (0.005 : ℝ) < 0.01 by norm_num),
      if_pos (show (0 : ℝ) < 1 * 1 by norm_num)]
  have hmem : forca_de_carga 1 ⟨0.005, 0, 0⟩ ⟨⟨0, 0, 0⟩, 1⟩
      ∈ (calcular_forca_coulomb 1 ⟨0.005, 0, 0⟩ [⟨⟨0, 0, 0⟩, 1⟩]).1 := by
    rw [calcular_forca_fst]
    exact List.mem_map_of_mem _ (List.mem_singleton.mpr rfl)
  have hM : (0 : ℝ) < K_E * |(1 : ℝ) * 1| / 0.01 ^ 2 :=
    div_pos (mul_pos K_E_pos (by norm_num)) (by norm_num)
  have heq := hall _ hmem
  rw [hF] at heq
  dsimp only at heq
  rw [Vec3.norm_smul, Vec3.norm_smul, hn, abs_of_pos hM,
    abs_of_pos (show (0 : ℝ) < 1 / 0.01 by norm_num)] at heq
  nlinarith [hM, heq]

/-- Claim C10 as amended: the resultant returned by
`calcular_forca_coulomb` always equals the vector sum of the per-charge
'vetor' entries; the returned list has exactly one entry per fixed charge
(in order), and an entry's 'magnitude' equals the Euclidean norm of its
'vetor' whenever the test position is at distance at least 0.01 (the clamp
threshold) from that entry's own charge — regardless of where the other
charges lie. -/
theorem c10_emendado (q_teste : ℝ) (p : Vec3) (cs : List Carga) :
    (calcular_forca_coulomb q_teste p cs).2
        = ((calcular_forca_coulomb q_teste p cs).1.map Forca.vetor).sum ∧
    (calcular_forca_coulomb q_teste p cs).1 = cs.map (forca_de_carga q_teste p) ∧
    ∀ c ∈ cs, 0.01 ≤ (p - c.pos).norm →
      (forca_de_carga q_teste p c).magnitude = (forca_de_carga q_teste p c).vetor.norm := by
  refine ⟨?_, calcular_forca_fst q_teste p cs, ?_⟩
  · rw [calcular_forca_snd, calcular_forca_fst, List.map_map]
    rfl
  · intro c hc h01
    have hd0 : (0 : ℝ) < (p - c.pos).norm := lt_of_lt_of_le (by norm_num) h01
    rw [forca_de_carga_sem_clamp q_teste p c h01]
    dsimp only
    rw [Vec3.norm_smul,
      show |K_E * (q_teste * c.q) / (p - c.pos).norm ^ 3|
          = K_E * |q_teste * c.q| / (p - c.pos).norm ^ 3 from by
        rw [abs_div, abs_mul, abs_of_pos K_E_pos, abs_of_pos (pow_pos hd0 3)]]
    field_simp
    ring

/-- Witness for C10 at a concrete input: test charge 1 C at `(1,0,0)`, one
unit charge at the origin (distance 1, beyond the clamp), whose list entry
has magnitude equal to the norm of its vector. -/
theorem c10_testemunha :
    (0.01 : ℝ) ≤ ((⟨1, 0, 0⟩ : Vec3) - (⟨⟨0, 0, 0⟩, 1⟩ : Carga).pos).norm ∧
    (forca_de_carga 1 ⟨1, 0, 0⟩ ⟨⟨0, 0, 0⟩, 1⟩).magnitude
      = (forca_de_carga 1 ⟨1, 0, 0⟩ ⟨⟨0, 0, 0⟩, 1⟩).vetor.norm := by
  have h : (0.01 : ℝ) ≤ ((⟨1, 0, 0⟩ : Vec3) - (⟨⟨0, 0, 0⟩, 1⟩ : Carga).pos).norm := by
    rw [show ((⟨1, 0, 0⟩ : Vec3) - (⟨⟨0, 0, 0⟩, 1⟩ : Carga).pos) = ⟨1, 0, 0⟩ from by
        ext <;> simp,
      Vec3.norm_axis_x 1 (by norm_num)]
    norm_num
  exact ⟨h, (c10_emendado 1 ⟨1, 0, 0⟩ [⟨⟨0, 0, 0⟩, 1⟩]).2.2 ⟨⟨0, 0, 0⟩, 1⟩
    (List.mem_singleton.mpr rfl) h⟩
